import Mathlib

/-
Verification development for the LifeWatch Italy semantic-platform
transformation service (src/dataset_transformation_functions.py).

The pandas DataFrame is modelled shallowly: a `Table` is an ordered list of
column names together with a list of rows, each row a list of nullable scalar
cells (`Value`).  Python/pandas missing values (None, NaN, pd.NA) are all
modelled by `Value.na`; Python floats are modelled as exact rationals.
Functions that can raise in Python return `Except String _`, with the caught
branches of each source function reproduced explicitly.  Identifier generation
(uuid4) is modelled by an explicit identifier supply `ids : Nat -> String`.
-/

namespace LW

/-- A nullable scalar cell of a table: the null sentinel, a string, or a
number (Python floats modelled as exact rationals). -/
inductive Value where
  | na : Value
  | str (s : String) : Value
  | num (q : ℚ) : Value
deriving DecidableEq, Repr

/-- A table: ordered column names and rows of cells, row cells positionally
aligned with the column list. -/
structure Table where
  cols : List String
  rows : List (List Value)
deriving DecidableEq, Repr

/-- Well-formedness: every row has exactly one cell per column. -/
def TableWF (t : Table) : Prop := ∀ r ∈ t.rows, r.length = t.cols.length

instance (t : Table) : Decidable (TableWF t) :=
  decidable_of_iff (∀ r ∈ t.rows, r.length = t.cols.length) Iff.rfl

instance {ε α : Type} [DecidableEq ε] [DecidableEq α] : DecidableEq (Except ε α)
  | .ok x, .ok y => decidable_of_iff (x = y) (by simp)
  | .error x, .error y => decidable_of_iff (x = y) (by simp)
  | .ok _, .error _ => .isFalse (fun h => Except.noConfusion h)
  | .error _, .ok _ => .isFalse (fun h => Except.noConfusion h)

/-- Index of the first column with a given name (pandas label lookup). -/
def colIdx : List String → String → Option Nat
  | [], _ => none
  | c :: cs, d => if c = d then some 0 else (colIdx cs d).map (· + 1)

/-- Cell of a row under a column label; the null sentinel when absent. -/
def getCellRow (cols : List String) (r : List Value) (c : String) : Value :=
  match colIdx cols c with
  | some i => r.getD i .na
  | none => .na

/-- Update the cell of a row under a column label (no-op when absent). -/
def setCellRow (cols : List String) (r : List Value) (c : String) (v : Value) : List Value :=
  match colIdx cols c with
  | some i => r.set i v
  | none => r

/-- One column of a table, as a list of cells. -/
def getColumn (t : Table) (c : String) : List Value :=
  t.rows.map (fun r => getCellRow t.cols r c)

/-- Column assignment df[c] = f(row): overwrite the column when the label
exists, append a new column otherwise. -/
def setColumnWith (t : Table) (c : String) (f : List Value → Value) : Table :=
  match colIdx t.cols c with
  | some i => { cols := t.cols, rows := t.rows.map (fun r => r.set i (f r)) }
  | none => { cols := t.cols ++ [c], rows := t.rows.map (fun r => r ++ [f r]) }

/-- Column assignment df[c] = vals for a precomputed list of cells. -/
def setColumnVals (t : Table) (c : String) (vals : List Value) : Table :=
  match colIdx t.cols c with
  | some i => { cols := t.cols, rows := List.zipWith (fun r v => r.set i v) t.rows vals }
  | none => { cols := t.cols ++ [c], rows := List.zipWith (fun r v => r ++ [v]) t.rows vals }

/-- Cell-wise map over one column (no-op when the label is absent). -/
def mapColumn (t : Table) (c : String) (f : Value → Value) : Table :=
  match colIdx t.cols c with
  | some i => { cols := t.cols, rows := t.rows.map (fun r => r.set i (f (r.getD i .na))) }
  | none => t

/-- Drop from a row the cells whose column label belongs to cs. -/
def dropColumnsRow (cols : List String) (cs : List String) (r : List Value) : List Value :=
  ((cols.zip r).filter (fun p => decide (p.1 ∉ cs))).map (fun p => p.2)

/-- df.drop(columns=cs) with the labels known to exist. -/
def dropColumnsT (t : Table) (cs : List String) : Table :=
  { cols := t.cols.filter (fun c => decide (c ∉ cs)),
    rows := t.rows.map (dropColumnsRow t.cols cs) }

/-- df.drop(columns=cs): raises KeyError when some label is absent. -/
def dropColumnsE (t : Table) (cs : List String) : Except String Table :=
  if ∀ c ∈ cs, c ∈ t.cols then .ok (dropColumnsT t cs) else .error "KeyError: drop"

/-- df.rename(columns=m): labels found in the mapping are replaced, all other
labels (and all rows) are untouched; missing keys are ignored. -/
def renameCols (t : Table) (m : List (String × String)) : Table :=
  { cols := t.cols.map (fun c => (m.lookup c).getD c), rows := t.rows }

/-- List concat-map, used to build melted row blocks. -/
def concatMapList (f : α → List β) : List α → List β
  | [] => []
  | a :: as => f a ++ concatMapList f as

/-- Row block of pd.melt: for every value column (outer) and every original
row (inner), the id cells followed by the variable name and the value. -/
def meltRows (cols : List String) (rows : List (List Value))
    (idVars valueVars : List String) : List (List Value) :=
  concatMapList
    (fun v => rows.map (fun r =>
      idVars.map (getCellRow cols r) ++ [Value.str v, getCellRow cols r v]))
    valueVars

/-- pd.melt(df, id_vars, value_vars, var_name, value_name): raises ValueError
when value_name collides with an existing column label. -/
def meltTable (t : Table) (idVars valueVars : List String)
    (varName valName : String) : Except String Table :=
  if valName ∈ t.cols then
    .error "ValueError: value_name cannot match an element in the DataFrame columns"
  else
    .ok { cols := idVars ++ [varName, valName],
          rows := meltRows t.cols t.rows idVars valueVars }

/-- pd.concat([t1, t2], ignore_index=True): align by column label, missing
labels filled with the null sentinel. -/
def concatTables (t1 t2 : Table) : Table :=
  let cs := t1.cols ++ t2.cols.filter (fun c => decide (c ∉ t1.cols))
  { cols := cs,
    rows :=
      t1.rows.map (fun r => cs.map (fun c =>
        if c ∈ t1.cols then getCellRow t1.cols r c else .na)) ++
      t2.rows.map (fun r => cs.map (fun c =>
        if c ∈ t2.cols then getCellRow t2.cols r c else .na)) }

/-! ### String and number helpers (Python semantics, executable) -/

/-- Character membership test, Python `c in s` for a single character. -/
def containsChar (s : String) (c : Char) : Bool := decide (c ∈ s.data)

/-- Split a character list on a separator character. -/
def splitOnCharAux (c : Char) : List Char → List Char → List (List Char)
  | [], acc => [acc.reverse]
  | d :: ds, acc =>
    if d = c then acc.reverse :: splitOnCharAux c ds []
    else splitOnCharAux c ds (d :: acc)

/-- Python s.split(c) for a one-character separator. -/
def pySplit (s : String) (c : Char) : List String :=
  (splitOnCharAux c s.data []).map String.mk

/-- Numeric value of a list of decimal digit characters. -/
def natOfDigits (l : List Char) : ℕ :=
  l.foldl (fun a c => 10 * a + (c.toNat - 48)) 0

/-- Leading and trailing space removal (Python int/float accept padding). -/
def trimSpaces (l : List Char) : List Char :=
  ((l.dropWhile (fun c => c = ' ')).reverse.dropWhile (fun c => c = ' ')).reverse

/-- Python int(s): optional sign followed by decimal digits (the underscore
and unicode-digit extensions are not modelled). -/
def pyInt (s : String) : Option Int :=
  match trimSpaces s.data with
  | '-' :: rest => (if rest ≠ [] ∧ rest.all Char.isDigit
      then some (natOfDigits rest) else none).map (fun n => -(n : Int))
  | '+' :: rest => (if rest ≠ [] ∧ rest.all Char.isDigit
      then some (natOfDigits rest) else none).map (fun n => (n : Int))
  | l => (if l ≠ [] ∧ l.all Char.isDigit
      then some (natOfDigits l) else none).map (fun n => (n : Int))

/-- Python float(s) / pd.to_numeric on a string: optional sign, decimal
digits with an optional fractional part (exponents, inf and nan are not
modelled and count as parse failures). -/
def parseDecimal (s : String) : Option ℚ :=
  let body := trimSpaces s.data
  let core : List Char → Option ℚ := fun b =>
    let ip := b.takeWhile (fun c => c ≠ '.')
    match b.dropWhile (fun c => c ≠ '.') with
    | [] =>
      if ip ≠ [] ∧ ip.all Char.isDigit then some (mkRat (natOfDigits ip) 1) else none
    | _ :: fp =>
      if (ip ≠ [] ∨ fp ≠ []) ∧ ip.all Char.isDigit ∧ fp.all Char.isDigit then
        some (mkRat (natOfDigits ip * 10 ^ fp.length + natOfDigits fp) (10 ^ fp.length))
      else none
  match body with
  | '-' :: rest => (core rest).map (fun q => -q)
  | '+' :: rest => core rest
  | l => core l

/-- Left-pad a string with zeros to a given width. -/
def padZeros (s : String) (k : Nat) : String :=
  if s.length < k then String.mk (List.replicate (k - s.length) '0') ++ s
  else s

/-- The rational q * 10 ^ k, built with mkRat so that it evaluates inside
the kernel. -/
def scalePow10 (q : ℚ) (k : Nat) : ℚ := mkRat (q.num * Int.ofNat (10 ^ k)) q.den

/-- Python repr of a float with a finite decimal expansion: minimal digits,
always at least one fractional digit (str(40.0) = "40.0"). -/
def floatRepr (q : ℚ) : String :=
  let k := (((List.range 40).find? (fun k => (scalePow10 q k).den = 1)).getD 40)
  let m := (scalePow10 q k).num
  let sign := if m < 0 then "-" else ""
  let n := m.natAbs
  if k = 0 then sign ++ toString n ++ ".0"
  else sign ++ toString (n / 10 ^ k) ++ "." ++ padZeros (toString (n % 10 ^ k)) k

/-- Python str() of a cell: None prints as "None", floats via repr. -/
def pyStr (v : Value) : String :=
  match v with
  | .na => "None"
  | .str s => s
  | .num q => floatRepr q

/-- pd.to_numeric(x, errors="coerce") on one cell. -/
def toNumericCell (v : Value) : Option ℚ :=
  match v with
  | .na => none
  | .num q => some q
  | .str s => parseDecimal s

/-! ### fix_event_date (source lines 81-111) -/

/-- Python f-string %02d formatting of an integer. -/
def fmt02 (n : Int) : String :=
  let s := toString n
  if s.length < 2 then "0" ++ s else s

/-- Two-digit-year disambiguation of the source (lines 99-105): y < 40 maps
into the 2000s, 40 <= y < 100 into the 1900s, anything else is kept. -/
def fixYearStr (y : Int) : String :=
  if y < 40 then "20" ++ fmt02 y
  else if y < 100 then "19" ++ fmt02 y
  else toString y

/-- Year parsing plus reassembly into yyyy-mm-dd; int() failure is the
ValueError caught by the source's except clause. -/
def assembleDate (y m d : String) : String :=
  match pyInt y with
  | none => "InvalidDate"
  | some yi => fixYearStr yi ++ "-" ++ m ++ "-" ++ d

/-- fix_event_date (source lines 81-111).  Slash dates are day/month/year,
dash dates starting with a four-character field are returned unchanged,
other dash dates are year-month-day; any raised exception (IndexError on a
short split, ValueError on unpack or int) yields the sentinel. -/
def fix_event_date (date : String) : String :=
  if containsChar date '/' then
    let parts := pySplit date '/'
    if parts.length ≥ 3 then
      if (parts.getD 2 "").length = 4 then
        assembleDate (parts.getD 2 "") (parts.getD 1 "") (parts.getD 0 "")
      else if parts.length = 3 then
        assembleDate (parts.getD 2 "") (parts.getD 1 "") (parts.getD 0 "")
      else "InvalidDate"
    else "InvalidDate"
  else if containsChar date '-' then
    let parts := pySplit date '-'
    if (parts.getD 0 "").length = 4 then date
    else if parts.length = 3 then
      assembleDate (parts.getD 0 "") (parts.getD 1 "") (parts.getD 2 "")
    else "InvalidDate"
  else date

/-! ### process_coordinates (source lines 169-218) -/

/-- One-character replace, Python str(x).replace(",", "."). -/
def commaToDot (s : String) : String :=
  String.mk (s.data.map (fun c => if c = ',' then '.' else c))

/-- Coordinate coercion of one cell (source lines 179-181 and 184-186):
null stays null, anything else is str-ed, comma-fixed and parsed with
float(), which raises ValueError on failure. -/
def coordCoerce (x : Value) : Except String Value :=
  if x = .na then .ok .na
  else
    match parseDecimal (commaToDot (pyStr x)) with
    | some q => .ok (.num q)
    | none => .error "ValueError: could not convert string to float"

/-- The value a successful coordinate coercion produces (used to state
theorems about runs where every coercion succeeded). -/
def coordCoerceOk (x : Value) : Value :=
  match coordCoerce x with
  | .ok v => v
  | .error _ => .na

/-- Apply coordinate coercion down one column, propagating the first
raised ValueError. -/
def coerceCellsE (i : Nat) : List (List Value) → Except String (List (List Value))
  | [] => .ok []
  | r :: rs =>
    match coordCoerce (r.getD i .na), coerceCellsE i rs with
    | .ok v, .ok rest => .ok (r.set i v :: rest)
    | .error e, _ => .error e
    | .ok _, .error e => .error e

/-- Coordinate coercion of a whole column by label. -/
def coerceColumnE (t : Table) (c : String) : Except String Table :=
  match colIdx t.cols c with
  | some i => (coerceCellsE i t.rows).map (fun rs => { cols := t.cols, rows := rs })
  | none => .ok t

/-- create_point (source lines 189-197): the missing-value branches compare
against the empty string, which a coerced cell (float or None) never equals,
so in practice only the final f-string branch runs. -/
def create_point (lat lon : Value) : Value :=
  if lat = .str "" ∧ lon = .str "" then .na
  else if lat = .str "" then .str ("NaN, " ++ pyStr lon)
  else if lon = .str "" then .str (pyStr lat ++ ", NaN")
  else .str (pyStr lat ++ ", " ++ pyStr lon)

/-- df.apply of create_point per row (source line 199); looking up a missing
decimalLatitude column raises KeyError. -/
def applyPointE (t : Table) : Except String Table :=
  match colIdx t.cols "decimalLatitude", colIdx t.cols "decimalLongitude" with
  | some i, some j =>
    .ok (setColumnWith t "point" (fun r => create_point (r.getD i .na) (r.getD j .na)))
  | _, _ => .error "KeyError: decimalLatitude"

/-- Depth cell transform (source lines 210-216): pd.to_numeric with coercion
followed by the negative of the absolute value. -/
def depthCell (v : Value) : Value :=
  match toNumericCell v with
  | some q => .num (mkRat (-(Int.ofNat q.num.natAbs)) q.den)
  | none => .na

/-- process_coordinates (source lines 169-218): coerce latitude, then either
coerce longitude and build the point column, or copy locality / assign the
null sentinel, then sign-normalize depth. -/
def process_coordinates (df : Table) : Except String Table :=
  match (if "decimalLatitude" ∈ df.cols
         then coerceColumnE df "decimalLatitude" else .ok df) with
  | .error e => .error e
  | .ok df1 =>
    match (if "decimalLongitude" ∈ df1.cols then
             match coerceColumnE df1 "decimalLongitude" with
             | .error e => Except.error e
             | .ok df2 => applyPointE df2
           else if "locality" ∈ df1.cols then
             .ok (setColumnWith df1 "point" (fun r => getCellRow df1.cols r "locality"))
           else
             .ok (setColumnWith df1 "point" (fun _ => .na))) with
    | .error e => .error e
    | .ok df3 =>
      .ok (if "depth" ∈ df3.cols then mapColumn df3 "depth" depthCell else df3)

/-! ### Identifier generators (source lines 221-244 and 388-413) -/

/-- The identifier cells produced for n rows from the identifier supply. -/
def idColumn (ids : Nat → String) (n : Nat) : List Value :=
  (List.range n).map (fun k => .str (ids k))

/-- Try-body of feature_of_interest_id_generator (source lines 223-234):
raises ValueError when the target column already exists. -/
def feature_of_interest_body (df : Table) (ids : Nat → String) : Except String Table :=
  if "featureOfInterestId" ∈ df.cols then
    .error "ValueError: the column featureOfInterestId already exists in the DataFrame"
  else .ok (setColumnVals df "featureOfInterestId" (idColumn ids df.rows.length))

/-- feature_of_interest_id_generator (source lines 221-244): the raised
ValueError is caught and the original table returned unmodified. -/
def feature_of_interest_id_generator (df : Table) (ids : Nat → String) : Table :=
  match feature_of_interest_body df ids with
  | .ok t => t
  | .error _ => df

/-- observation_id_generator (source lines 388-413): adds an observationId
column with fresh identifiers; if the column already exists the raised
ValueError is caught and the table returned unmodified. -/
def observation_id_generator (df : Table) (ids : Nat → String) : Table :=
  if "observationId" ∈ df.cols then df
  else setColumnVals df "observationId" (idColumn ids df.rows.length)

/-! ### clean_and_infer_measurement_values (source lines 248-289) -/

/-- The invalid placeholder tokens of source line 253 (None matches the null
sentinel directly). -/
def invalidTokens : List Value :=
  [.str "NaN", .str "NAN", .str "none", .str "empty", .str "Null", .str ""]

/-- A measurementValue cell counted as missing by step 1 of the cleaner. -/
def isInvalidMeasurement (v : Value) : Bool :=
  decide (v = .na ∨ v ∈ invalidTokens)

/-- Step 1 of the cleaner: placeholder tokens and nulls become the sentinel. -/
def replaceInvalid (v : Value) : Value :=
  if v = .na ∨ v ∈ invalidTokens then .na else v

/-- Keep-strings per-cell result: the numeric coercion when it succeeds,
the cell itself otherwise. -/
def cleanedOf (v : Value) : Value :=
  match toNumericCell v with
  | some q => .num q
  | none => v

/-- clean_and_infer_measurement_values (source lines 248-289).  A missing
measurementValue column raises KeyError, caught by the except clause which
returns the input.  Otherwise placeholders are nulled, a numeric parse is
attempted, and under keep_strings the parsed number or the original cell is
kept while rows whose cleaned cell is null are dropped; the helper columns
numericValue and measurementValue_cleaned are materialized and then dropped,
exactly as in the source. -/
def clean_and_infer_measurement_values (df : Table) (keep_strings : Bool := true) : Table :=
  match colIdx df.cols "measurementValue" with
  | none => df
  | some i =>
    let d1 : Table :=
      { cols := df.cols, rows := df.rows.map (fun r => r.set i (replaceInvalid (r.getD i .na))) }
    if keep_strings then
      let d2 := setColumnWith d1 "numericValue" (fun r =>
        match toNumericCell (r.getD i .na) with
        | some q => .num q
        | none => .na)
      let d3 := setColumnWith d2 "measurementValue_cleaned" (fun r =>
        let nv := getCellRow d2.cols r "numericValue"
        if nv ≠ .na then nv else getCellRow d2.cols r "measurementValue")
      let kept := d3.rows.filter (fun r =>
        decide (getCellRow d3.cols r "measurementValue_cleaned" ≠ .na))
      let d4 : Table :=
        { cols := d3.cols,
          rows := kept.map (fun r => r.set i (getCellRow d3.cols r "measurementValue_cleaned")) }
      dropColumnsT d4 ["numericValue", "measurementValue_cleaned"]
    else
      { cols := d1.cols,
        rows := (d1.rows.filter (fun r => (toNumericCell (r.getD i .na)).isSome)).map
          (fun r => r.set i (match toNumericCell (r.getD i .na) with
            | some q => .num q
            | none => .na)) }

/-! ### measurement_attribute_preparation (source lines 294-385) -/

/-- One trait-dictionary entry (label, definition, unit, type url). -/
structure TraitEntry where
  label : Value
  definition : Value
  unit : Value
  url : Value
deriving DecidableEq, Repr

/-- The loaded trait dictionary: the file can be missing (FileNotFoundError),
malformed (JSONDecodeError), or a keyed entry list. -/
inductive TraitSource where
  | missing : TraitSource
  | malformed : TraitSource
  | ok (d : List (String × TraitEntry)) : TraitSource

/-- Column names recognized as measurement columns. -/
def traitKeys (d : List (String × TraitEntry)) : List String := d.map (fun p => p.1)

/-- Trait metadata cells joined onto one melted row by its propertyName
(the right side of the left merge); unmatched names give four nulls. -/
def traitCells (cols : List String) (d : List (String × TraitEntry)) (r : List Value) :
    List Value :=
  match getCellRow cols r "propertyName" with
  | .str p =>
    match List.lookup p d with
    | some e => [e.label, e.definition, e.unit, e.url]
    | none => [.na, .na, .na, .na]
  | _ => [.na, .na, .na, .na]

/-- Left merge of the trait metadata onto a melted table by propertyName
(source lines 354-368); trait-dictionary keys are unique, so the merge
appends exactly four cells to every row. -/
def mergeTraits (t : Table) (d : List (String × TraitEntry)) : Table :=
  { cols := t.cols ++ ["propertyLabel", "propertyDefinition", "measurementUnit", "propertyUrl"],
    rows := t.rows.map (fun r => r ++ traitCells t.cols d r) }

/-- Try-body of measurement_attribute_preparation (source lines 295-375); an
error carries the message together with the local df at the raise site, which
is what the except clauses return. -/
def measurement_body (df : Table) (src : TraitSource) (ids : Nat → String) :
    Except (String × Table) Table :=
  match src with
  | .missing => .error ("FileNotFoundError: trait dict file not found", df)
  | .malformed => .error ("JSONDecodeError: trait dict file malformed", df)
  | .ok d =>
    let ks := traitKeys d
    let measurement_list := df.cols.filter (fun c => decide (c ∈ ks))
    let non_measurement_list := df.cols.filter (fun c => decide (c ∉ ks))
    if measurement_list = [] then
      if "measurementValue" ∈ non_measurement_list then
        let d1 := observation_id_generator df ids
        let d2 := renameCols d1
          [("measurementType", "propertyName"), ("measurementTypeID", "propertyUrl")]
        if "propertyName" ∈ d2.cols then
          let d3 := setColumnWith d2 "propertyLabel" (fun r => getCellRow d2.cols r "propertyName")
          .ok (setColumnWith d3 "propertyDefinition" (fun _ => .na))
        else .error ("KeyError: propertyName", d2)
      else
        let d1 := observation_id_generator df ids
        let d2 := setColumnWith d1 "propertyName" (fun _ => .na)
        let d3 := setColumnWith d2 "measurementValue" (fun _ => .na)
        let d4 := setColumnWith d3 "propertyLabel" (fun _ => .na)
        let d5 := setColumnWith d4 "propertyDefinition" (fun _ => .na)
        let d6 := setColumnWith d5 "measurementUnit" (fun _ => .na)
        .ok (setColumnWith d6 "propertyUrl" (fun _ => .na))
    else
      match meltTable df non_measurement_list measurement_list "propertyName" "measurementValue" with
      | .error e => .error (e, df)
      | .ok melted =>
        let merged := mergeTraits melted d
        let cleaned := clean_and_infer_measurement_values merged true
        .ok (observation_id_generator cleaned ids)

/-- measurement_attribute_preparation (source lines 294-385): every raised
exception is caught by one of the three except clauses, which return the
local df; the stage therefore always returns a table. -/
def measurement_attribute_preparation (df : Table) (src : TraitSource) (ids : Nat → String) :
    Table :=
  match measurement_body df src ids with
  | .ok t => t
  | .error e => e.2

/-! ### taxonomy_attribution_preparation (source lines 416-515) -/

/-- The loaded taxonomy column list: missing file, malformed file, or the
list of recognized rank column names. -/
inductive TaxonomySource where
  | missing : TaxonomySource
  | malformed : TaxonomySource
  | ok (l : List String) : TaxonomySource

/-- pandas .str.lower() on one cell of an object column: strings are
lower-cased, non-strings become the null sentinel. -/
def lowerCell (v : Value) : Value :=
  match v with
  | .str s => .str (String.mk (s.data.map Char.toLower))
  | _ => .na

/-- Try-body of taxonomy_attribution_preparation (source lines 417-508):
raises on a missing or malformed file, on a missing acceptedNameUsage column
when taxonRank exists, and on pandas melt/drop label errors. -/
def taxonomy_body (df : Table) (src : TaxonomySource) : Except String Table :=
  match src with
  | .missing => .error "FileNotFoundError: taxonomy list file not found"
  | .malformed => .error "JSONDecodeError: taxonomy list file malformed"
  | .ok lst =>
    if "taxonRank" ∈ df.cols then
      let d1 := mapColumn df "taxonRank" lowerCell
      if "acceptedNameUsage" ∈ d1.cols then
        let d2 := setColumnWith d1 "taxon" (fun r => getCellRow d1.cols r "acceptedNameUsage")
        let taxonomy_columns := d2.cols.filter (fun c => decide (c ∈ lst))
        let non_taxonomy_columns := d2.cols.filter (fun c => decide (c ∉ lst))
        if taxonomy_columns = [] then .ok d2
        else
          match meltTable d2 non_taxonomy_columns taxonomy_columns "temp_taxonRank" "temp_taxon" with
          | .error e => .error e
          | .ok melted =>
            match dropColumnsE melted ["taxon", "taxonRank"] with
            | .error e => .error e
            | .ok dropped =>
              let renamed := renameCols dropped
                [("temp_taxonRank", "taxonRank"), ("temp_taxon", "taxon")]
              match dropColumnsE d2 taxonomy_columns with
              | .error e => .error e
              | .ok d3 => .ok (concatTables d3 renamed)
      else .error "ValueError: the DataFrame does not contain a column named acceptedNameUsage"
    else
      let taxonomy_columns := df.cols.filter (fun c => decide (c ∈ lst))
      let non_taxonomy_columns := df.cols.filter (fun c => decide (c ∉ lst))
      if taxonomy_columns = [] then
        .ok (setColumnWith (setColumnWith df "taxonRank" (fun _ => .na)) "taxon" (fun _ => .na))
      else
        meltTable df non_taxonomy_columns taxonomy_columns "taxonRank" "taxon"

/-- taxonomy_attribution_preparation (source lines 416-515): every raised
exception is caught by an except clause that only logs, so the Python
function falls off its end and returns None, modelled as none. -/
def taxonomy_attribution_preparation (df : Table) (src : TaxonomySource) : Option Table :=
  match taxonomy_body df src with
  | .ok t => some t
  | .error _ => none

/-! ### normalize_empty_values (source lines 518-523) -/

/-- The cell map of normalize_empty_values: nulls and empty strings become
the sentinel, every other cell is untouched. -/
def normCell (x : Value) : Value :=
  if x = .na ∨ x = .str "" then .na else x

/-- normalize_empty_values (source lines 518-523): the cell map applied to
the whole table (df.map never raises here, so the except clause is dead). -/
def normalize_empty_values (df : Table) : Table :=
  { cols := df.cols, rows := df.rows.map (List.map normCell) }

/-! ### Helper lemmas about column lookup and list surgery -/

theorem colIdx_eq_none : ∀ (cols : List String) (c : String), colIdx cols c = none ↔ c ∉ cols
  | [], c => by simp [colIdx]
  | c0 :: cs, c => by
    by_cases h : c0 = c
    · simp [colIdx, h]
    · simp only [colIdx, if_neg h, Option.map_eq_none', colIdx_eq_none cs c,
        List.mem_cons, not_or]
      constructor
      · intro hn
        exact ⟨fun hc => h hc.symm, hn⟩
      · intro hn
        exact hn.2

theorem colIdx_mem_of_some (cols : List String) (c : String) (i : Nat)
    (h : colIdx cols c = some i) : c ∈ cols := by
  by_contra hc
  rw [(colIdx_eq_none cols c).mpr hc] at h
  exact Option.noConfusion h

theorem colIdx_append_left (xs ys : List String) (c : String) (h : c ∈ xs) :
    colIdx (xs ++ ys) c = colIdx xs c := by
  induction xs with
  | nil => exact absurd h (List.not_mem_nil c)
  | cons x xs ih =>
    by_cases hx : x = c
    · simp [colIdx, hx]
    · have : c ∈ xs := by
        rcases List.mem_cons.mp h with h1 | h1
        · exact absurd h1.symm hx
        · exact h1
      simp [colIdx, hx, ih this]

theorem colIdx_append_right (xs ys : List String) (c : String) (h : c ∉ xs) :
    colIdx (xs ++ ys) c = (colIdx ys c).map (· + xs.length) := by
  induction xs with
  | nil => simp
  | cons x xs ih =>
    have hx : ¬ x = c := fun he => h (by simp [he])
    have h2 : c ∉ xs := fun hm => h (List.mem_cons_of_mem _ hm)
    rw [List.cons_append, colIdx, if_neg hx, ih h2, Option.map_map]
    cases colIdx ys c with
    | none => rfl
    | some a => simp [Function.comp, Nat.add_assoc]

theorem colIdx_lt (cols : List String) (c : String) (i : Nat)
    (h : colIdx cols c = some i) : i < cols.length ∧ cols.getD i "" = c := by
  induction cols generalizing i with
  | nil => exact Option.noConfusion h
  | cons x xs ih =>
    by_cases hx : x = c
    · rw [colIdx, if_pos hx] at h
      cases h
      simpa using hx
    · rw [colIdx, if_neg hx] at h
      cases hj : colIdx xs c with
      | none => rw [hj] at h; exact Option.noConfusion h
      | some j =>
        rw [hj] at h
        simp only [Option.map_some'] at h
        obtain ⟨hlt, hget⟩ := ih j hj
        cases h
        constructor
        · simpa using Nat.succ_lt_succ hlt
        · simpa using hget

theorem getD_append_len (xs : List α) (b : α) (ys : List α) (d : α) :
    (xs ++ b :: ys).getD xs.length d = b := by
  rw [List.getD_append_right _ _ _ _ (le_refl _)]
  simp

theorem getD_append_lt (xs ys : List α) (i : Nat) (d : α) (h : i < xs.length) :
    (xs ++ ys).getD i d = xs.getD i d :=
  List.getD_append _ _ _ _ h

theorem set_append_lt (xs ys : List α) (i : Nat) (v : α) (h : i < xs.length) :
    (xs ++ ys).set i v = xs.set i v ++ ys := by
  induction xs generalizing i with
  | nil => exact absurd h (Nat.not_lt_zero i)
  | cons x xs ih =>
    cases i with
    | zero => simp
    | succ i => simp [List.set_cons_succ, ih i (Nat.lt_of_succ_lt_succ h)]

theorem getD_set_self (l : List α) (i : Nat) (v d : α) (h : i < l.length) :
    (l.set i v).getD i d = v := by
  rw [List.getD_eq_getElem?_getD, List.getElem?_set_self h]
  rfl

theorem getD_set_ne (l : List α) (i j : Nat) (v d : α) (h : i ≠ j) :
    (l.set i v).getD j d = l.getD j d := by
  rw [List.getD_eq_getElem?_getD, List.getElem?_set_ne h, ← List.getD_eq_getElem?_getD]

theorem length_concatMapList (f : α → List β) : ∀ l : List α,
    (concatMapList f l).length = (l.map (fun a => (f a).length)).sum
  | [] => rfl
  | a :: as => by
    simp [concatMapList, length_concatMapList f as]

theorem filter_concatMapList (p : β → Bool) (f : α → List β) : ∀ l : List α,
    (concatMapList f l).filter p = concatMapList (fun a => (f a).filter p) l
  | [] => rfl
  | a :: as => by
    simp [concatMapList, List.filter_append, filter_concatMapList p f as]

theorem map_concatMapList (g : β → γ) (f : α → List β) : ∀ l : List α,
    (concatMapList f l).map g = concatMapList (fun a => (f a).map g) l
  | [] => rfl
  | a :: as => by
    simp [concatMapList, map_concatMapList g f as]

theorem sum_map_const_nat (l : List α) (n : Nat) :
    (l.map (fun _ => n)).sum = l.length * n := by
  induction l with
  | nil => simp
  | cons a as ih => simp [ih, Nat.succ_mul, Nat.add_comm]

/-! ### Helper lemmas about the table operations -/

theorem setColumnWith_of_not_mem (t : Table) (c : String) (f : List Value → Value)
    (h : c ∉ t.cols) :
    setColumnWith t c f = { cols := t.cols ++ [c], rows := t.rows.map (fun r => r ++ [f r]) } := by
  rw [setColumnWith, (colIdx_eq_none t.cols c).mpr h]

theorem setColumnWith_mk_not_mem (cols : List String) (rows : List (List Value))
    (c : String) (f : List Value → Value) (h : c ∉ cols) :
    setColumnWith ⟨cols, rows⟩ c f = ⟨cols ++ [c], rows.map (fun r => r ++ [f r])⟩ := by
  rw [setColumnWith]
  have : colIdx cols c = none := (colIdx_eq_none cols c).mpr h
  simp only at this ⊢
  rw [this]

theorem setColumnWith_length (t : Table) (c : String) (f : List Value → Value) :
    (setColumnWith t c f).rows.length = t.rows.length := by
  rw [setColumnWith]
  cases colIdx t.cols c <;> simp

theorem setColumnWith_cols_cases (t : Table) (c : String) (f : List Value → Value) :
    (setColumnWith t c f).cols = t.cols ∨ (setColumnWith t c f).cols = t.cols ++ [c] := by
  rw [setColumnWith]
  cases colIdx t.cols c
  · right; rfl
  · left; rfl

theorem mem_setColumnWith_cols (t : Table) (c : String) (f : List Value → Value) :
    c ∈ (setColumnWith t c f).cols := by
  rw [setColumnWith]
  cases h : colIdx t.cols c with
  | none => simp
  | some i => simpa using colIdx_mem_of_some t.cols c i h

theorem mem_cols_setColumnWith (t : Table) (c d : String) (f : List Value → Value)
    (h : d ∈ t.cols) : d ∈ (setColumnWith t c f).cols := by
  rcases setColumnWith_cols_cases t c f with hc | hc <;> rw [hc]
  · exact h
  · exact List.mem_append_left _ h

theorem setColumnVals_length (t : Table) (c : String) (vals : List Value)
    (h : vals.length = t.rows.length) :
    (setColumnVals t c vals).rows.length = t.rows.length := by
  rw [setColumnVals]
  cases colIdx t.cols c <;> simp [List.length_zipWith, h]

theorem mapColumn_cols (t : Table) (c : String) (f : Value → Value) :
    (mapColumn t c f).cols = t.cols := by
  rw [mapColumn]
  cases colIdx t.cols c <;> rfl

theorem mapColumn_length (t : Table) (c : String) (f : Value → Value) :
    (mapColumn t c f).rows.length = t.rows.length := by
  rw [mapColumn]
  cases colIdx t.cols c <;> simp

theorem dropColumnsT_length (t : Table) (cs : List String) :
    (dropColumnsT t cs).rows.length = t.rows.length := by
  simp [dropColumnsT]

theorem concatTables_length (t1 t2 : Table) :
    (concatTables t1 t2).rows.length = t1.rows.length + t2.rows.length := by
  simp [concatTables]

theorem observation_id_generator_length (t : Table) (ids : Nat → String) :
    (observation_id_generator t ids).rows.length = t.rows.length := by
  rw [observation_id_generator]
  split
  · rfl
  · exact setColumnVals_length _ _ _ (by simp [idColumn])

/-! ### Characterization of the keep-strings cleaner -/

theorem colIdx_singleton_self (c : String) : colIdx [c] c = some 0 := by
  simp [colIdx]

theorem getCellRow_some (cols : List String) (r : List Value) (c : String) (j : Nat)
    (h : colIdx cols c = some j) : getCellRow cols r c = r.getD j Value.na := by
  rw [getCellRow, h]

theorem colIdx_append_self (xs : List String) (c : String) (h : c ∉ xs) :
    colIdx (xs ++ [c]) c = some xs.length := by
  rw [colIdx_append_right xs [c] c h, colIdx_singleton_self]
  simp

theorem getD_append_at (xs : List α) (b : α) (d : α) (k : Nat) (h : xs.length = k) :
    (xs ++ [b]).getD k d = b := by
  subst h
  simp [getD_append_len xs b [] d]

/-- The keep-strings branch per cell: the numericValue-or-original choice
equals the sentinel on invalid input cells and cleanedOf otherwise. -/
theorem clean_cell_eq (v : Value) :
    (if (match toNumericCell (replaceInvalid v) with
         | some q => Value.num q
         | none => Value.na) ≠ Value.na
     then (match toNumericCell (replaceInvalid v) with
           | some q => Value.num q
           | none => Value.na)
     else replaceInvalid v) =
    if isInvalidMeasurement v then Value.na else cleanedOf v := by
  by_cases hv : v = .na ∨ v ∈ invalidTokens
  · have hw : replaceInvalid v = .na := by simp [replaceInvalid, hv]
    have hb : isInvalidMeasurement v = true := by simp [isInvalidMeasurement, hv]
    simp [hw, hb, toNumericCell]
  · have hw : replaceInvalid v = v := by simp [replaceInvalid, hv]
    have hb : isInvalidMeasurement v = false := by
      simp only [isInvalidMeasurement, decide_eq_false_iff_not]
      exact hv
    rw [hw, hb]
    cases hnum : toNumericCell v with
    | some q => simp [cleanedOf, hnum]
    | none => simp [cleanedOf, hnum]

/-- The dropna condition per cell: the cleaned cell is non-null exactly when
the input cell was not an invalid placeholder. -/
theorem clean_cell_filter (v : Value) :
    decide ((if isInvalidMeasurement v then Value.na else cleanedOf v) ≠ Value.na) =
      !(isInvalidMeasurement v) := by
  by_cases hv : v = .na ∨ v ∈ invalidTokens
  · have hb : isInvalidMeasurement v = true := by simp [isInvalidMeasurement, hv]
    simp [hb]
  · have hb : isInvalidMeasurement v = false := by
      simp only [isInvalidMeasurement, decide_eq_false_iff_not]
      exact hv
    have hvna : v ≠ .na := fun he => hv (Or.inl he)
    rw [hb]
    cases hnum : toNumericCell v with
    | some q => simp [cleanedOf, hnum]
    | none => simp [cleanedOf, hnum, hvna]

/-- Dropping the two helper columns from a row that carries exactly the two
appended helper cells recovers the original row. -/
theorem dropColumnsRow_two (cols : List String) (cs : List String) (r : List Value)
    (n1 n2 : String) (v1 v2 : Value)
    (hlen : r.length = cols.length)
    (hcols : ∀ c ∈ cols, c ∉ cs) (hn1 : n1 ∈ cs) (hn2 : n2 ∈ cs) :
    dropColumnsRow ((cols ++ [n1]) ++ [n2]) cs ((r ++ [v1]) ++ [v2]) = r := by
  unfold dropColumnsRow
  rw [List.append_assoc, List.append_assoc, List.zip_append hlen.symm]
  rw [List.filter_append]
  have e2 : ((([n1] ++ [n2]).zip ([v1] ++ [v2])).filter (fun p => decide (p.1 ∉ cs))) = [] := by
    simp [hn1, hn2]
  rw [e2, List.append_nil]
  have e1 : ((cols.zip r).filter (fun p => decide (p.1 ∉ cs))) = cols.zip r :=
    List.filter_eq_self.mpr (fun p hp => by
      have hm := (List.of_mem_zip hp).1
      simpa using hcols _ hm)
  rw [e1]
  exact List.map_snd_zip cols r (le_of_eq hlen)

/-- Keep-strings cleaner characterization: with the helper column names
fresh, the cleaner keeps exactly the rows whose measurementValue cell is not
an invalid placeholder and rewrites that cell to its numeric coercion when
one exists and to the original value otherwise, leaving columns as they
were. -/
theorem clean_keep_spec (t : Table) (i : Nat)
    (hci : colIdx t.cols "measurementValue" = some i)
    (hWF : TableWF t)
    (h1 : "numericValue" ∉ t.cols)
    (h2 : "measurementValue_cleaned" ∉ t.cols) :
    (clean_and_infer_measurement_values t true).cols = t.cols ∧
    (clean_and_infer_measurement_values t true).rows =
      (t.rows.filter (fun r => !(isInvalidMeasurement (r.getD i .na)))).map
        (fun r => r.set i (cleanedOf (r.getD i .na))) := by
  obtain ⟨hi, -⟩ := colIdx_lt t.cols "measurementValue" i hci
  have hmv : "measurementValue" ∈ t.cols := colIdx_mem_of_some _ _ _ hci
  have hcnv : colIdx (t.cols ++ ["numericValue"]) "numericValue" = some t.cols.length :=
    colIdx_append_self t.cols "numericValue" h1
  have hmvc2 : "measurementValue_cleaned" ∉ t.cols ++ ["numericValue"] := by
    intro hmem
    rcases List.mem_append.mp hmem with h | h
    · exact h2 h
    · simp only [List.mem_singleton] at h
      exact absurd h (by decide)
  have hcmv2 : colIdx (t.cols ++ ["numericValue"]) "measurementValue" = some i := by
    rw [colIdx_append_left _ _ _ hmv, hci]
  have hcclean : colIdx ((t.cols ++ ["numericValue"]) ++ ["measurementValue_cleaned"])
      "measurementValue_cleaned" = some (t.cols.length + 1) := by
    rw [colIdx_append_self _ _ hmvc2]
    simp
  have hn : ∀ r ∈ t.rows, r.length = t.cols.length := hWF
  simp only [clean_and_infer_measurement_values, hci, if_true]
  simp only [setColumnWith_mk_not_mem _ _ _ _ h1]
  simp only [setColumnWith_mk_not_mem _ _ _ _ hmvc2]
  simp only [dropColumnsT, List.map_map]
  rw [List.filter_map]
  refine ⟨?_, ?_⟩
  · -- the helper columns are filtered away again
    rw [List.filter_append, List.filter_append]
    have e0 : (t.cols.filter
        (fun c => decide (c ∉ ["numericValue", "measurementValue_cleaned"]))) = t.cols :=
      List.filter_eq_self.mpr (fun c hc => by
        simp only [decide_eq_true_iff, List.mem_cons, List.not_mem_nil, or_false, not_or]
        exact ⟨fun he => h1 (he ▸ hc), fun he => h2 (he ▸ hc)⟩)
    rw [e0]
    simp
  · rw [List.map_map]
    have hfilter : ∀ r ∈ t.rows,
        ((fun r => decide (getCellRow ((t.cols ++ ["numericValue"]) ++ ["measurementValue_cleaned"]) r
            "measurementValue_cleaned" ≠ Value.na)) ∘
          ((fun r => r ++ [if getCellRow (t.cols ++ ["numericValue"]) r "numericValue" ≠ Value.na
              then getCellRow (t.cols ++ ["numericValue"]) r "numericValue"
              else getCellRow (t.cols ++ ["numericValue"]) r "measurementValue"]) ∘
            ((fun r => r ++ [match toNumericCell (r.getD i Value.na) with
                | some q => Value.num q
                | none => Value.na]) ∘
              (fun r => r.set i (replaceInvalid (r.getD i Value.na)))))) r =
        !(isInvalidMeasurement (r.getD i Value.na)) := by
      intro r hr
      have hrl : r.length = t.cols.length := hn r hr
      have hset : (r.set i (replaceInvalid (r.getD i Value.na))).length = t.cols.length := by
        rw [List.length_set, hrl]
      simp only [Function.comp]
      rw [getCellRow_some _ _ _ _ hcclean]
      rw [getD_append_at _ _ _ _ (by simp [hset, hrl])]
      rw [getCellRow_some _ _ _ _ hcnv, getCellRow_some _ _ _ _ hcmv2]
      rw [getD_append_at _ _ _ _ hset]
      rw [getD_append_lt _ _ _ _ (by rw [hset]; exact hi)]
      rw [getD_set_self _ _ _ _ (by rw [hrl]; exact hi)]
      rw [clean_cell_eq, clean_cell_filter]
    rw [List.filter_congr hfilter]
    apply List.map_congr_left
    intro r hr
    have hrmem : r ∈ t.rows := List.mem_of_mem_filter hr
    have hsurv : !(isInvalidMeasurement (r.getD i Value.na)) = true := by
      have := List.of_mem_filter hr
      simpa using this
    have hinv : isInvalidMeasurement (r.getD i Value.na) = false := by
      simpa using hsurv
    have hrl : r.length = t.cols.length := hn r hrmem
    have hset : (r.set i (replaceInvalid (r.getD i Value.na))).length = t.cols.length := by
      rw [List.length_set, hrl]
    simp only [Function.comp]
    rw [getCellRow_some _ _ _ _ hcclean]
    rw [getD_append_at _ _ _ _ (by simp [hset, hrl])]
    rw [getCellRow_some _ _ _ _ hcnv, getCellRow_some _ _ _ _ hcmv2]
    rw [getD_append_at _ _ _ _ hset]
    rw [getD_append_lt _ _ _ _ (by rw [hset]; exact hi)]
    rw [getD_set_self _ _ _ _ (by rw [hrl]; exact hi)]
    rw [clean_cell_eq]
    rw [hinv]
    simp only [Bool.false_eq_true, if_false]
    rw [set_append_lt _ _ _ _ (by simp only [List.length_append, List.length_set]; omega)]
    rw [set_append_lt _ _ _ _ (by simp only [List.length_set]; omega)]
    rw [List.set_set]
    exact dropColumnsRow_two t.cols _ _ _ _ _ _
      (by rw [List.length_set, hrl])
      (fun c hc => by
        simp only [List.mem_cons, List.not_mem_nil, or_false, not_or]
        exact ⟨fun he => h1 (he ▸ hc), fun he => h2 (he ▸ hc)⟩)
      (by simp) (by simp)

theorem renameCols_rows (t : Table) (m : List (String × String)) :
    (renameCols t m).rows = t.rows := rfl

/-- Row count of a melted block: one row per (value column, original row). -/
theorem meltRows_length (cols : List String) (rows : List (List Value))
    (idVars valueVars : List String) :
    (meltRows cols rows idVars valueVars).length = valueVars.length * rows.length := by
  simp only [meltRows, length_concatMapList, List.length_map]
  rw [sum_map_const_nat]

/-- TaxonomyMelter branch without a pre-existing taxonRank column: with at
least one recognized column, the output has rows x recognized-columns rows. -/
theorem taxonomy_plain_melt_rows (df : Table) (lst : List String)
    (h1 : "taxonRank" ∉ df.cols) (h2 : "taxon" ∉ df.cols)
    (hK : df.cols.filter (fun c => decide (c ∈ lst)) ≠ []) :
    (taxonomy_attribution_preparation df (.ok lst)).map (fun t => t.rows.length) =
      some (df.rows.length * (df.cols.filter (fun c => decide (c ∈ lst))).length) := by
  have hbody : taxonomy_body df (.ok lst) = .ok
      ⟨(df.cols.filter (fun c => decide (c ∉ lst))) ++ ["taxonRank", "taxon"],
       meltRows df.cols df.rows (df.cols.filter (fun c => decide (c ∉ lst)))
         (df.cols.filter (fun c => decide (c ∈ lst)))⟩ := by
    simp only [taxonomy_body]
    rw [if_neg h1, if_neg hK, meltTable, if_neg h2]
  simp only [taxonomy_attribution_preparation, hbody, Option.map_some']
  rw [Option.some.injEq, meltRows_length]
  exact Nat.mul_comm _ _

/-- TaxonomyMelter branch with a pre-existing taxonRank column: the melted
rows are concatenated onto the original rows, so the output has
rows x (recognized columns + 1) rows. -/
theorem taxonomy_concat_melt_rows (df : Table) (lst : List String)
    (h1 : "taxonRank" ∈ df.cols) (h2 : "acceptedNameUsage" ∈ df.cols)
    (h3 : "taxonRank" ∉ lst) (h4 : "taxon" ∉ lst)
    (h5 : "temp_taxon" ∉ df.cols)
    (hK : df.cols.filter (fun c => decide (c ∈ lst)) ≠ []) :
    (taxonomy_attribution_preparation df (.ok lst)).map (fun t => t.rows.length) =
      some (df.rows.length * ((df.cols.filter (fun c => decide (c ∈ lst))).length + 1)) := by
  have hd1cols : (mapColumn df "taxonRank" lowerCell).cols = df.cols := mapColumn_cols _ _ _
  have hd1len : (mapColumn df "taxonRank" lowerCell).rows.length = df.rows.length :=
    mapColumn_length _ _ _
  set d1 := mapColumn df "taxonRank" lowerCell with hd1def
  set f := fun r => getCellRow d1.cols r "acceptedNameUsage" with hfdef
  set d2 := setColumnWith d1 "taxon" f with hd2def
  have hd2len : d2.rows.length = df.rows.length := by
    rw [hd2def, setColumnWith_length, hd1len]
  have htaxd2 : "taxon" ∈ d2.cols := mem_setColumnWith_cols d1 "taxon" f
  have htrd2 : "taxonRank" ∈ d2.cols := by
    apply mem_cols_setColumnWith
    rw [hd1cols]
    exact h1
  have hd2cases : d2.cols = df.cols ∨ d2.cols = df.cols ++ ["taxon"] := by
    rcases setColumnWith_cols_cases d1 "taxon" f with hc | hc
    · left
      rw [hd2def, hc, hd1cols]
    · right
      rw [hd2def, hc, hd1cols]
  have hKd2 : d2.cols.filter (fun c => decide (c ∈ lst)) =
      df.cols.filter (fun c => decide (c ∈ lst)) := by
    rcases hd2cases with hc | hc
    · rw [hc]
    · rw [hc, List.filter_append]
      simp [h4]
  have hsub : ∀ c ∈ df.cols, c ∈ d2.cols := by
    intro c hc
    rcases hd2cases with h | h <;> rw [h]
    · exact hc
    · exact List.mem_append_left _ hc
  have h5d2 : "temp_taxon" ∉ d2.cols := by
    intro hmem
    rcases hd2cases with h | h <;> rw [h] at hmem
    · exact h5 hmem
    · rcases List.mem_append.mp hmem with hm | hm
      · exact h5 hm
      · simp only [List.mem_singleton] at hm
        exact absurd hm (by decide)
  have hmelt : meltTable d2 (d2.cols.filter (fun c => decide (c ∉ lst)))
      (d2.cols.filter (fun c => decide (c ∈ lst))) "temp_taxonRank" "temp_taxon" = .ok
      ⟨(d2.cols.filter (fun c => decide (c ∉ lst))) ++ ["temp_taxonRank", "temp_taxon"],
       meltRows d2.cols d2.rows (d2.cols.filter (fun c => decide (c ∉ lst)))
         (d2.cols.filter (fun c => decide (c ∈ lst)))⟩ := by
    rw [meltTable, if_neg h5d2]
  have hdropcond : ∀ c ∈ ["taxon", "taxonRank"],
      c ∈ (d2.cols.filter (fun c => decide (c ∉ lst))) ++ ["temp_taxonRank", "temp_taxon"] := by
    intro c hc
    apply List.mem_append_left
    rcases List.mem_cons.mp hc with hc1 | hc1
    · subst hc1
      exact List.mem_filter.mpr ⟨htaxd2, by simpa using h4⟩
    · simp only [List.mem_singleton] at hc1
      subst hc1
      exact List.mem_filter.mpr ⟨htrd2, by simpa using h3⟩
  have hdrop1 : dropColumnsE
      ⟨(d2.cols.filter (fun c => decide (c ∉ lst))) ++ ["temp_taxonRank", "temp_taxon"],
       meltRows d2.cols d2.rows (d2.cols.filter (fun c => decide (c ∉ lst)))
         (d2.cols.filter (fun c => decide (c ∈ lst)))⟩ ["taxon", "taxonRank"] = .ok
      (dropColumnsT
        ⟨(d2.cols.filter (fun c => decide (c ∉ lst))) ++ ["temp_taxonRank", "temp_taxon"],
         meltRows d2.cols d2.rows (d2.cols.filter (fun c => decide (c ∉ lst)))
           (d2.cols.filter (fun c => decide (c ∈ lst)))⟩ ["taxon", "taxonRank"]) := by
    rw [dropColumnsE, if_pos hdropcond]
  have hdrop2 : dropColumnsE d2 (d2.cols.filter (fun c => decide (c ∈ lst))) = .ok
      (dropColumnsT d2 (d2.cols.filter (fun c => decide (c ∈ lst)))) := by
    rw [dropColumnsE, if_pos (fun c hc => List.mem_of_mem_filter hc)]
  have hKne2 : d2.cols.filter (fun c => decide (c ∈ lst)) ≠ [] := by
    rw [hKd2]
    exact hK
  have hbody : taxonomy_body df (.ok lst) = .ok
      (concatTables (dropColumnsT d2 (d2.cols.filter (fun c => decide (c ∈ lst))))
        (renameCols
          (dropColumnsT
            ⟨(d2.cols.filter (fun c => decide (c ∉ lst))) ++ ["temp_taxonRank", "temp_taxon"],
             meltRows d2.cols d2.rows (d2.cols.filter (fun c => decide (c ∉ lst)))
               (d2.cols.filter (fun c => decide (c ∈ lst)))⟩ ["taxon", "taxonRank"])
          [("temp_taxonRank", "taxonRank"), ("temp_taxon", "taxon")])) := by
    simp only [taxonomy_body]
    rw [if_pos h1]
    rw [if_pos (show "acceptedNameUsage" ∈ d1.cols by rw [hd1cols]; exact h2)]
    rw [← hfdef, ← hd2def]
    rw [if_neg hKne2]
    simp only [hmelt, hdrop1, hdrop2]
  simp only [taxonomy_attribution_preparation, hbody, Option.map_some']
  rw [Option.some.injEq, concatTables_length, dropColumnsT_length, renameCols_rows]
  simp only [dropColumnsT, List.length_map]
  rw [meltRows_length, hd2len, hKd2]
  ring

theorem getD_append_len_succ (xs : List α) (b c : α) (ys : List α) (d : α) :
    (xs ++ b :: c :: ys).getD (xs.length + 1) d = c := by
  rw [List.getD_append_right _ _ _ _ (by omega)]
  simp

theorem traitCells_length (cols : List String) (d : List (String × TraitEntry))
    (r : List Value) : (traitCells cols d r).length = 4 := by
  unfold traitCells
  cases getCellRow cols r "propertyName" with
  | na => rfl
  | str p =>
    dsimp only
    cases List.lookup p d with
    | none => rfl
    | some e => rfl
  | num q => rfl

theorem mem_concatMapList {f : α → List β} {b : β} :
    ∀ {l : List α}, b ∈ concatMapList f l ↔ ∃ a ∈ l, b ∈ f a
  | [] => by simp [concatMapList]
  | a :: as => by
    simp [concatMapList, List.mem_append, mem_concatMapList (l := as)]

/-- MeasurementMelter main path: the output has one row per (original row,
measurement column) pair whose melted cell survives cleaning. -/
theorem melt_clean_rows_count (df : Table) (d : List (String × TraitEntry)) (ids : Nat → String)
    (hM : df.cols.filter (fun c => decide (c ∈ traitKeys d)) ≠ [])
    (hmv : "measurementValue" ∉ df.cols)
    (_hpn : "propertyName" ∉ df.cols)
    (hnv : "numericValue" ∉ df.cols)
    (hmvc : "measurementValue_cleaned" ∉ df.cols) :
    (measurement_attribute_preparation df (.ok d) ids).rows.length =
      ((df.cols.filter (fun c => decide (c ∈ traitKeys d))).map (fun v =>
        (df.rows.filter (fun r =>
          !(isInvalidMeasurement (getCellRow df.cols r v)))).length)).sum := by
  have hsubnonM : ∀ x : String, x ∉ df.cols →
      x ∉ df.cols.filter (fun c => decide (c ∉ traitKeys d)) :=
    fun x hx hmem => hx (List.mem_of_mem_filter hmem)
  have hmelt : meltTable df (df.cols.filter (fun c => decide (c ∉ traitKeys d)))
      (df.cols.filter (fun c => decide (c ∈ traitKeys d))) "propertyName" "measurementValue" =
      .ok ⟨(df.cols.filter (fun c => decide (c ∉ traitKeys d))) ++
             ["propertyName", "measurementValue"],
           meltRows df.cols df.rows (df.cols.filter (fun c => decide (c ∉ traitKeys d)))
             (df.cols.filter (fun c => decide (c ∈ traitKeys d)))⟩ := by
    rw [meltTable, if_neg hmv]
  have hbody : measurement_body df (.ok d) ids = .ok
      (observation_id_generator
        (clean_and_infer_measurement_values
          (mergeTraits
            ⟨(df.cols.filter (fun c => decide (c ∉ traitKeys d))) ++
               ["propertyName", "measurementValue"],
             meltRows df.cols df.rows (df.cols.filter (fun c => decide (c ∉ traitKeys d)))
               (df.cols.filter (fun c => decide (c ∈ traitKeys d)))⟩ d) true) ids) := by
    simp only [measurement_body]
    rw [if_neg hM]
    simp only [hmelt]
  simp only [measurement_attribute_preparation, hbody]
  rw [observation_id_generator_length]
  -- the cleaner characterization on the merged table
  have hciInner : colIdx ((df.cols.filter (fun c => decide (c ∉ traitKeys d))) ++
      ["propertyName", "measurementValue"]) "measurementValue" =
      some (1 + (df.cols.filter (fun c => decide (c ∉ traitKeys d))).length) := by
    rw [colIdx_append_right _ _ _ (hsubnonM _ hmv)]
    have : colIdx ["propertyName", "measurementValue"] "measurementValue" = some 1 := by decide
    rw [this]
    rfl
  have hci : colIdx (mergeTraits
      ⟨(df.cols.filter (fun c => decide (c ∉ traitKeys d))) ++
         ["propertyName", "measurementValue"],
       meltRows df.cols df.rows (df.cols.filter (fun c => decide (c ∉ traitKeys d)))
         (df.cols.filter (fun c => decide (c ∈ traitKeys d)))⟩ d).cols "measurementValue" =
      some (1 + (df.cols.filter (fun c => decide (c ∉ traitKeys d))).length) := by
    simp only [mergeTraits]
    rw [colIdx_append_left _ _ _ (by
      apply List.mem_append_right
      decide)]
    exact hciInner
  have hWFm : TableWF (mergeTraits
      ⟨(df.cols.filter (fun c => decide (c ∉ traitKeys d))) ++
         ["propertyName", "measurementValue"],
       meltRows df.cols df.rows (df.cols.filter (fun c => decide (c ∉ traitKeys d)))
         (df.cols.filter (fun c => decide (c ∈ traitKeys d)))⟩ d) := by
    intro r hr
    simp only [mergeTraits, List.mem_map] at hr
    obtain ⟨r0, hr0, rfl⟩ := hr
    simp only [meltRows] at hr0
    rw [mem_concatMapList] at hr0
    obtain ⟨v, -, hr0⟩ := hr0
    simp only [List.mem_map] at hr0
    obtain ⟨r1, -, rfl⟩ := hr0
    simp only [mergeTraits, List.length_append, traitCells_length, List.length_map,
      List.length_cons, List.length_singleton, List.length_nil]
  have hfresh : ∀ x : String, x ∉ df.cols → x ≠ "propertyName" → x ≠ "measurementValue" →
      x ≠ "propertyLabel" → x ≠ "propertyDefinition" → x ≠ "measurementUnit" →
      x ≠ "propertyUrl" →
      x ∉ (mergeTraits
        ⟨(df.cols.filter (fun c => decide (c ∉ traitKeys d))) ++
           ["propertyName", "measurementValue"],
         meltRows df.cols df.rows (df.cols.filter (fun c => decide (c ∉ traitKeys d)))
           (df.cols.filter (fun c => decide (c ∈ traitKeys d)))⟩ d).cols := by
    intro x hx e1 e2 e3 e4 e5 e6 hmem
    have hxnon := hsubnonM x hx
    simp only [mergeTraits, List.mem_append, List.mem_cons, List.not_mem_nil,
      or_false] at hmem
    tauto
  obtain ⟨-, hcleanrows⟩ := clean_keep_spec _ _ hci hWFm
    (hfresh "numericValue" hnv (by decide) (by decide) (by decide) (by decide) (by decide)
      (by decide))
    (hfresh "measurementValue_cleaned" hmvc (by decide) (by decide) (by decide) (by decide)
      (by decide) (by decide))
  rw [hcleanrows, List.length_map]
  simp only [mergeTraits]
  rw [List.filter_map, List.length_map]
  simp only [meltRows]
  rw [filter_concatMapList, length_concatMapList]
  apply congrArg List.sum
  apply List.map_congr_left
  intro v hv
  rw [List.filter_map, List.length_map]
  apply congrArg List.length
  apply List.filter_congr
  intro r hr
  simp only [Function.comp]
  have hlen1 : ((df.cols.filter (fun c => decide (c ∉ traitKeys d))).map
      (getCellRow df.cols r)).length =
      (df.cols.filter (fun c => decide (c ∉ traitKeys d))).length := List.length_map _ _
  rw [getD_append_lt _ _ _ _ (by
    simp only [List.length_append, List.length_map, List.length_cons, List.length_singleton]
    omega)]
  rw [Nat.add_comm 1 ((df.cols.filter (fun c => decide (c ∉ traitKeys d))).length)]
  rw [← hlen1]
  rw [getD_append_len_succ]

/-- A concrete identifier supply standing in for the uuid stream. -/
def exampleIds : Nat → String := fun n => "obs" ++ toString n

/-- Successful column coercion sets every cell to its coerced value. -/
theorem coerceCellsE_ok (i : Nat) (rows : List (List Value)) :
    ∀ rs, coerceCellsE i rows = .ok rs →
    rs = rows.map (fun r => r.set i (coordCoerceOk (r.getD i Value.na))) := by
  induction rows with
  | nil =>
    intro rs h
    simp only [coerceCellsE] at h
    cases h
    rfl
  | cons r rest ih =>
    intro rs h
    simp only [coerceCellsE] at h
    cases hc : coordCoerce (r.getD i Value.na) with
    | error e =>
      rw [hc] at h
      exact absurd h (by simp)
    | ok v =>
      rw [hc] at h
      cases hrest : coerceCellsE i rest with
      | error e =>
        rw [hrest] at h
        exact absurd h (by simp)
      | ok rs2 =>
        rw [hrest] at h
        have hv : coordCoerceOk (r.getD i Value.na) = v := by
          rw [coordCoerceOk, hc]
        cases h
        rw [List.map_cons, ← ih rs2 hrest, hv]

/-! ### Claim C10 -/

/-- C10: on a table with a decimalLatitude column but no decimalLongitude
column, the coordinate stage numerically coerces the latitude values but
never derives point from them: point is copied from the locality column when
one exists and is the null sentinel otherwise, exactly as in the
no-coordinates case (stated with fresh point and depth labels). -/
theorem coerceColumnE_some (t : Table) (c : String) (i : Nat)
    (h : colIdx t.cols c = some i) :
    coerceColumnE t c = (coerceCellsE i t.rows).map (fun rs => ⟨t.cols, rs⟩) := by
  rw [coerceColumnE, h]

/-- C10: on a table with a decimalLatitude column but no decimalLongitude
column, the coordinate stage numerically coerces the latitude values but
never derives point from them: point is copied from the locality column when
one exists and is the null sentinel otherwise, exactly as in the
no-coordinates case (stated with fresh point and depth labels). -/
theorem c10_lat_without_lon (df t : Table)
    (hWF : TableWF df)
    (hlat : "decimalLatitude" ∈ df.cols)
    (hlon : "decimalLongitude" ∉ df.cols)
    (hpt : "point" ∉ df.cols)
    (hdep : "depth" ∉ df.cols)
    (hok : process_coordinates df = .ok t) :
    t.cols = df.cols ++ ["point"] ∧
    getColumn t "point" =
      (if "locality" ∈ df.cols then getColumn df "locality"
       else df.rows.map (fun _ => Value.na)) ∧
    getColumn t "decimalLatitude" =
      (getColumn df "decimalLatitude").map coordCoerceOk := by
  cases hci : colIdx df.cols "decimalLatitude" with
  | none => exact absurd hlat ((colIdx_eq_none _ _).mp hci)
  | some i =>
    obtain ⟨hi, hgeti⟩ := colIdx_lt _ _ _ hci
    rw [process_coordinates, if_pos hlat] at hok
    cases hc1 : coerceColumnE df "decimalLatitude" with
    | error e =>
      rw [hc1] at hok
      exact absurd hok (by simp)
    | ok df1 =>
      rw [coerceColumnE_some _ _ _ hci] at hc1
      cases hcc : coerceCellsE i df.rows with
      | error e =>
        rw [hcc] at hc1
        exact absurd hc1 (by simp [Except.map])
      | ok rs =>
        rw [hcc] at hc1
        simp only [Except.map, Except.ok.injEq] at hc1
        have hrs := coerceCellsE_ok i df.rows rs hcc
        subst hrs
        subst hc1
        simp only [coerceColumnE_some _ _ _ hci, hcc, Except.map] at hok
        rw [if_neg hlon] at hok
        have hdep2 : "depth" ∉ df.cols ++ ["point"] := by
          intro hm
          rcases List.mem_append.mp hm with hm | hm
          · exact hdep hm
          · simp only [List.mem_singleton] at hm
            exact absurd hm (by decide)
        have hptidx : colIdx (df.cols ++ ["point"]) "point" = some df.cols.length :=
          colIdx_append_self _ _ hpt
        have hlatidx : colIdx (df.cols ++ ["point"]) "decimalLatitude" = some i := by
          rw [colIdx_append_left _ _ _ hlat]
          exact hci
        by_cases hloc : "locality" ∈ df.cols
        · rw [if_pos hloc] at hok
          cases hcj : colIdx df.cols "locality" with
          | none => exact absurd hloc ((colIdx_eq_none _ _).mp hcj)
          | some j =>
            obtain ⟨hj, hgetj⟩ := colIdx_lt _ _ _ hcj
            have hij : i ≠ j := by
              intro he
              rw [he, hgetj] at hgeti
              exact absurd hgeti (by decide)
            rw [setColumnWith_mk_not_mem _ _ _ _ hpt] at hok
            simp only [Except.ok.injEq] at hok
            rw [if_neg hdep2] at hok
            subst hok
            refine ⟨rfl, ?_, ?_⟩
            · rw [if_pos hloc]
              simp only [getColumn, List.map_map]
              apply List.map_congr_left
              intro r hr
              simp only [Function.comp]
              rw [getCellRow_some _ _ _ _ hptidx]
              rw [getD_append_at _ _ _ _ (by rw [List.length_set]; exact hWF r hr)]
              rw [getCellRow_some _ _ _ _ hcj, getCellRow_some _ _ _ _ hcj]
              exact getD_set_ne _ _ _ _ _ hij
            · simp only [getColumn, List.map_map]
              apply List.map_congr_left
              intro r hr
              simp only [Function.comp]
              rw [getCellRow_some _ _ _ _ hlatidx]
              rw [getD_append_lt _ _ _ _ (by rw [List.length_set, hWF r hr]; exact hi)]
              rw [getD_set_self _ _ _ _ (by rw [hWF r hr]; exact hi)]
              rw [getCellRow_some _ _ _ _ hci]
        · rw [if_neg hloc] at hok
          rw [setColumnWith_mk_not_mem _ _ _ _ hpt] at hok
          simp only [Except.ok.injEq] at hok
          rw [if_neg hdep2] at hok
          subst hok
          refine ⟨rfl, ?_, ?_⟩
          · rw [if_neg hloc]
            simp only [getColumn, List.map_map]
            apply List.map_congr_left
            intro r hr
            simp only [Function.comp]
            rw [getCellRow_some _ _ _ _ hptidx]
            rw [getD_append_at _ _ _ _ (by rw [List.length_set]; exact hWF r hr)]
          · simp only [getColumn, List.map_map]
            apply List.map_congr_left
            intro r hr
            simp only [Function.comp]
            rw [getCellRow_some _ _ _ _ hlatidx]
            rw [getD_append_lt _ _ _ _ (by rw [List.length_set, hWF r hr]; exact hi)]
            rw [getD_set_self _ _ _ _ (by rw [hWF r hr]; exact hi)]
            rw [getCellRow_some _ _ _ _ hci]

/-- Witness for C10 at a concrete one-column latitude table. -/
theorem c10_witness :
    (⟨["decimalLatitude", "point"], [[Value.num (mkRat 81 2), Value.na]]⟩ : Table).cols =
      (⟨["decimalLatitude"], [[Value.str "40,5"]]⟩ : Table).cols ++ ["point"] ∧
    getColumn ⟨["decimalLatitude", "point"], [[Value.num (mkRat 81 2), Value.na]]⟩ "point" =
      (if "locality" ∈ (⟨["decimalLatitude"], [[Value.str "40,5"]]⟩ : Table).cols
       then getColumn ⟨["decimalLatitude"], [[Value.str "40,5"]]⟩ "locality"
       else (⟨["decimalLatitude"], [[Value.str "40,5"]]⟩ : Table).rows.map
         (fun _ => Value.na)) ∧
    getColumn ⟨["decimalLatitude", "point"], [[Value.num (mkRat 81 2), Value.na]]⟩
        "decimalLatitude" =
      (getColumn ⟨["decimalLatitude"], [[Value.str "40,5"]]⟩ "decimalLatitude").map
        coordCoerceOk :=
  c10_lat_without_lon ⟨["decimalLatitude"], [[Value.str "40,5"]]⟩
    ⟨["decimalLatitude", "point"], [[Value.num (mkRat 81 2), Value.na]]⟩
    (by decide) (by decide) (by decide) (by decide) (by decide) (by decide)

/-! ### Claim C1 -/

/-- A two-row table with one measurement column, one of whose values is the
empty-string placeholder. -/
def c1Table : Table := ⟨["id", "height"], [[.str "a", .str "5"], [.str "b", .str ""]]⟩

/-- A one-key trait dictionary recognizing the height column. -/
def c1Dict : List (String × TraitEntry) :=
  [("height", ⟨.str "H", .str "D", .str "U", .str "T"⟩)]

/-- C1 counterexample: two input rows and one melted measurement column, but
the cleaner drops the row whose melted value is the empty placeholder, so the
output has 1 row, which is not (input rows) x (any whole number of columns):
the claimed row-count formula fails. -/
theorem c1_counterexample :
    c1Table.rows.length = 2 ∧
    (measurement_attribute_preparation c1Table (.ok c1Dict) exampleIds).rows.length = 1 ∧
    ¬ (2 ∣ (measurement_attribute_preparation c1Table (.ok c1Dict) exampleIds).rows.length) := by
  refine ⟨?_, ?_, ?_⟩
  · decide
  · decide
  · decide

/-- C1 amended: (i) MeasurementMelter with at least one measurement column
outputs one row per (input row, measurement column) pair whose melted value
survives cleaning — whole rows of the melted table are dropped cell-wise, not
whole columns; (ii) TaxonomyMelter without a pre-existing taxonRank column
outputs input rows x recognized columns; (iii) TaxonomyMelter with a
pre-existing taxonRank column concatenates the original rows onto the melted
rows, giving input rows x (recognized columns + 1).  All parts are stated for
tables that do not already use the reserved internal column names. -/
theorem c1_amended :
    (∀ (df : Table) (d : List (String × TraitEntry)) (ids : Nat → String),
      df.cols.filter (fun c => decide (c ∈ traitKeys d)) ≠ [] →
      "measurementValue" ∉ df.cols →
      "propertyName" ∉ df.cols →
      "numericValue" ∉ df.cols →
      "measurementValue_cleaned" ∉ df.cols →
      (measurement_attribute_preparation df (.ok d) ids).rows.length =
        ((df.cols.filter (fun c => decide (c ∈ traitKeys d))).map (fun v =>
          (df.rows.filter (fun r =>
            !(isInvalidMeasurement (getCellRow df.cols r v)))).length)).sum) ∧
    (∀ (df : Table) (lst : List String),
      "taxonRank" ∉ df.cols →
      "taxon" ∉ df.cols →
      df.cols.filter (fun c => decide (c ∈ lst)) ≠ [] →
      (taxonomy_attribution_preparation df (.ok lst)).map (fun t => t.rows.length) =
        some (df.rows.length * (df.cols.filter (fun c => decide (c ∈ lst))).length)) ∧
    (∀ (df : Table) (lst : List String),
      "taxonRank" ∈ df.cols →
      "acceptedNameUsage" ∈ df.cols →
      "taxonRank" ∉ lst →
      "taxon" ∉ lst →
      "temp_taxon" ∉ df.cols →
      df.cols.filter (fun c => decide (c ∈ lst)) ≠ [] →
      (taxonomy_attribution_preparation df (.ok lst)).map (fun t => t.rows.length) =
        some (df.rows.length * ((df.cols.filter (fun c => decide (c ∈ lst))).length + 1))) :=
  ⟨melt_clean_rows_count, taxonomy_plain_melt_rows, taxonomy_concat_melt_rows⟩

/-- Witness for C1 amended at concrete tables: a melt where one of two cells
survives cleaning in one column and both survive in another, a plain
taxonomy melt, and a concat taxonomy melt. -/
theorem c1_witness :
    (measurement_attribute_preparation
      ⟨["id", "height", "mass"], [[.str "a", .str "1", .str "x"], [.str "b", .str "", .str "y"]]⟩
      (.ok [("height", ⟨.str "H", .str "D", .str "U", .str "T"⟩),
            ("mass", ⟨.str "M", .str "E", .str "G", .str "W"⟩)]) exampleIds).rows.length = 3 ∧
    (taxonomy_attribution_preparation ⟨["sname", "kingdom"], [[.str "s", .str "k"]]⟩
      (.ok ["kingdom"])).map (fun t => t.rows.length) = some 1 ∧
    (taxonomy_attribution_preparation
      ⟨["taxonRank", "acceptedNameUsage", "kingdom"], [[.str "SP", .str "Aa", .str "k"]]⟩
      (.ok ["kingdom"])).map (fun t => t.rows.length) = some 2 := by
  refine ⟨?_, ?_, ?_⟩
  · have h := c1_amended.1
      ⟨["id", "height", "mass"], [[.str "a", .str "1", .str "x"], [.str "b", .str "", .str "y"]]⟩
      [("height", ⟨.str "H", .str "D", .str "U", .str "T"⟩),
       ("mass", ⟨.str "M", .str "E", .str "G", .str "W"⟩)] exampleIds
      (by decide) (by decide) (by decide) (by decide) (by decide)
    rw [h]
    decide
  · have h := c1_amended.2.1 ⟨["sname", "kingdom"], [[.str "s", .str "k"]]⟩ ["kingdom"]
      (by decide) (by decide) (by decide)
    rw [h]
    decide
  · have h := c1_amended.2.2
      ⟨["taxonRank", "acceptedNameUsage", "kingdom"], [[.str "SP", .str "Aa", .str "k"]]⟩
      ["kingdom"] (by decide) (by decide) (by decide) (by decide) (by decide) (by decide)
    rw [h]
    decide

/-! ### Claim C9 -/

theorem normCell_idem (v : Value) : normCell (normCell v) = normCell v := by
  by_cases h : v = .na ∨ v = .str ""
  · simp [normCell, h]
  · simp [normCell, h]

/-- C9: NullNormalizer is idempotent: for every table T,
normalize_empty_values (normalize_empty_values T) = normalize_empty_values T. -/
theorem c9_nullnormalizer_idempotent (df : Table) :
    normalize_empty_values (normalize_empty_values df) = normalize_empty_values df := by
  cases df with
  | mk cols rows =>
    simp only [normalize_empty_values, Table.mk.injEq, List.map_map]
    refine ⟨trivial, ?_⟩
    apply List.map_congr_left
    intro r _
    simp only [Function.comp, List.map_map]
    apply List.map_congr_left
    intro v _
    exact normCell_idem v

/-! ### Claim C4 -/

/-- A one-cell table holding the placeholder token "NaN". -/
def c4Table : Table := ⟨["v"], [[.str "NaN"]]⟩

/-- C4 counterexample: NullNormalizer leaves the placeholder token "NaN" in
place, so the output contains a placeholder cell, contrary to the claim that
no cell of the result is a placeholder token. -/
theorem c4_counterexample :
    (normalize_empty_values c4Table).rows = [[Value.str "NaN"]] ∧
    Value.str "NaN" ≠ Value.na := by
  exact ⟨by decide, by decide⟩

/-- C4 amended: after NullNormalizer every already-null and every
empty-string cell is the canonical sentinel and no cell of the result is an
empty string, but placeholder tokens such as "NaN" are left unchanged (the
cell map only touches nulls and empty strings). -/
theorem c4_amended :
    (∀ df : Table, ∀ r ∈ (normalize_empty_values df).rows, ∀ v ∈ r, v ≠ Value.str "") ∧
    (∀ v : Value, v ≠ .na → v ≠ .str "" → normCell v = v) := by
  constructor
  · intro df r hr v hv
    simp only [normalize_empty_values, List.mem_map] at hr
    obtain ⟨r0, -, rfl⟩ := hr
    simp only [List.mem_map] at hv
    obtain ⟨v0, -, rfl⟩ := hv
    by_cases h : v0 = .na ∨ v0 = .str ""
    · simp [normCell, h]
    · rw [normCell, if_neg h]
      exact fun he => h (Or.inr he)
  · intro v h1 h2
    simp [normCell, h1, h2]

/-- Witness for C4 amended at a concrete table and cell. -/
theorem c4_amended_witness :
    Value.str "x" ≠ Value.str "" ∧ normCell (Value.str "x") = Value.str "x" := by
  constructor
  · exact c4_amended.1 ⟨["a", "b"], [[.str "", .str "x"]]⟩ [Value.na, Value.str "x"]
      (by decide) (Value.str "x") (by decide)
  · exact c4_amended.2 (Value.str "x") (by decide) (by decide)

/-! ### Claim C7 -/

/-- C7: on a table that already has a featureOfInterestId column the
generator body raises the configuration ValueError and the stage returns the
table unmodified: no column is added, removed, or changed. -/
theorem c7_idgenerator_existing_column (df : Table) (ids : Nat → String)
    (h : "featureOfInterestId" ∈ df.cols) :
    feature_of_interest_body df ids =
      .error "ValueError: the column featureOfInterestId already exists in the DataFrame" ∧
    feature_of_interest_id_generator df ids = df := by
  have hb : feature_of_interest_body df ids =
      .error "ValueError: the column featureOfInterestId already exists in the DataFrame" := by
    rw [feature_of_interest_body, if_pos h]
  exact ⟨hb, by rw [feature_of_interest_id_generator, hb]⟩

/-- Witness for C7 at a concrete table. -/
theorem c7_witness :
    feature_of_interest_id_generator ⟨["featureOfInterestId"], [[Value.str "z"]]⟩ (fun _ => "w") =
      ⟨["featureOfInterestId"], [[Value.str "z"]]⟩ :=
  (c7_idgenerator_existing_column ⟨["featureOfInterestId"], [[Value.str "z"]]⟩
    (fun _ => "w") (by decide)).2

/-! ### Claim C5 -/

/-- C5: the four documented fix_event_date evaluations, the two-digit-year
disambiguation rule (y < 40 maps to 2000 + y, 40 <= y < 100 to 1900 + y),
and years of 100 or more kept as-is; parse failures yield the sentinel (the
"not-a-date" case) and the function is total, never propagating. -/
theorem c5_fix_event_date :
    fix_event_date "15/06/23" = "2023-06-15" ∧
    fix_event_date "15/06/99" = "1999-06-15" ∧
    fix_event_date "2020-06-15" = "2020-06-15" ∧
    fix_event_date "not-a-date" = "InvalidDate" ∧
    (∀ y : ℕ, y < 100 →
      fixYearStr (y : Int) = toString (if y < 40 then 2000 + y else 1900 + y)) ∧
    (∀ y : ℕ, 100 ≤ y → fixYearStr (y : Int) = toString ((y : Int))) := by
  refine ⟨by decide, by decide, by decide, by decide, by decide, ?_⟩
  intro y hy
  have h40 : ¬((y : Int) < 40) := by
    rw [not_lt]
    exact_mod_cast (by omega : (40 : ℕ) ≤ y)
  have h100 : ¬((y : Int) < 100) := by
    rw [not_lt]
    exact_mod_cast hy
  simp [fixYearStr, h40, h100]

/-- Witness for C5 at the concrete year 23. -/
theorem c5_witness :
    (23 : ℕ) < 100 ∧
    fixYearStr ((23 : ℕ) : Int) =
      toString (if (23 : ℕ) < 40 then 2000 + (23 : ℕ) else 1900 + (23 : ℕ)) :=
  ⟨by decide, c5_fix_event_date.2.2.2.2.1 23 (by decide)⟩

/-! ### Claim C2 -/

/-- A table whose only row has both coordinates present (comma decimals). -/
def c2BothTable : Table :=
  ⟨["decimalLatitude", "decimalLongitude"], [[.str "40,5", .str "-3,7"]]⟩

/-- A table whose only row has a null latitude and a longitude present. -/
def c2MissingLatTable : Table :=
  ⟨["decimalLatitude", "decimalLongitude"], [[.na, .str "-3,7"]]⟩

/-- C2 evaluated: the concrete both-present case does produce 40.5, -3.7 and
point "40.5, -3.7", but for a row with a null latitude the code produces
point "None, -3.7" instead of the claimed "NaN, -3.7": the missing-value
branches of create_point compare against the empty string, which a coerced
cell (float or None) never equals, so the f-string branch always runs. -/
theorem c2_point_null_handling :
    process_coordinates c2BothTable =
      .ok ⟨["decimalLatitude", "decimalLongitude", "point"],
           [[.num (mkRat 81 2), .num (mkRat (-37) 10), .str "40.5, -3.7"]]⟩ ∧
    process_coordinates c2MissingLatTable =
      .ok ⟨["decimalLatitude", "decimalLongitude", "point"],
           [[.na, .num (mkRat (-37) 10), .str "None, -3.7"]]⟩ ∧
    "None, -3.7" ≠ "NaN, -3.7" := by
  refine ⟨by decide, by decide, by decide⟩

/-! ### Claim C6 -/

/-- A table with a taxonRank column but no acceptedNameUsage column. -/
def c6Table : Table := ⟨["taxonRank", "scientificName"], [[.str "Species", .str "x"]]⟩

/-- C6 counterexample: on a table with taxonRank but no acceptedNameUsage the
body raises the ValueError, but the stage catches it and returns None (no
table) instead of propagating a fatal error: the run is not aborted. -/
theorem c6_counterexample :
    taxonomy_body c6Table (.ok ["kingdom"]) =
      .error "ValueError: the DataFrame does not contain a column named acceptedNameUsage" ∧
    taxonomy_attribution_preparation c6Table (.ok ["kingdom"]) = none := by
  exact ⟨rfl, rfl⟩

/-- C6 amended: for every table with a taxonRank column but no
acceptedNameUsage column, TaxonomyMelter's body raises the ValueError and the
stage's generic handler catches it, returning no table (Python None); the
error does not propagate and the run is not aborted. -/
theorem c6_amended (df : Table) (lst : List String)
    (h1 : "taxonRank" ∈ df.cols) (h2 : "acceptedNameUsage" ∉ df.cols) :
    taxonomy_body df (.ok lst) =
      .error "ValueError: the DataFrame does not contain a column named acceptedNameUsage" ∧
    taxonomy_attribution_preparation df (.ok lst) = none := by
  have hb : taxonomy_body df (.ok lst) =
      .error "ValueError: the DataFrame does not contain a column named acceptedNameUsage" := by
    simp only [taxonomy_body]
    rw [if_pos h1, if_neg (by rw [mapColumn_cols]; exact h2)]
  exact ⟨hb, by rw [taxonomy_attribution_preparation, hb]⟩

/-- Witness for C6 amended at a concrete table. -/
theorem c6_amended_witness :
    taxonomy_attribution_preparation ⟨["taxonRank"], [[Value.str "Genus"]]⟩ (.ok ["genus"]) = none :=
  (c6_amended ⟨["taxonRank"], [[Value.str "Genus"]]⟩ ["genus"] (by decide) (by decide)).2

/-! ### Claim C8 -/

/-- C8: under the default keep-strings policy, each surviving row has its
measurementValue replaced by the numeric coercion when it succeeds and kept
as the original value otherwise, and exactly the rows whose original value
was missing (null or a placeholder token) are removed; all other columns are
untouched (stated for tables that do not already use the two internal helper
column names). -/
theorem c8_valuecleaner_keep_strings (df : Table)
    (hmv : "measurementValue" ∈ df.cols)
    (hWF : TableWF df)
    (h1 : "numericValue" ∉ df.cols)
    (h2 : "measurementValue_cleaned" ∉ df.cols) :
    (clean_and_infer_measurement_values df true).cols = df.cols ∧
    (clean_and_infer_measurement_values df true).rows =
      (df.rows.filter (fun r =>
        !(isInvalidMeasurement (getCellRow df.cols r "measurementValue")))).map
        (fun r => setCellRow df.cols r "measurementValue"
          (cleanedOf (getCellRow df.cols r "measurementValue"))) := by
  cases h : colIdx df.cols "measurementValue" with
  | none => exact absurd hmv ((colIdx_eq_none _ _).mp h)
  | some i =>
    have hg : ∀ r : List Value, getCellRow df.cols r "measurementValue" = r.getD i Value.na :=
      fun r => getCellRow_some _ _ _ _ h
    have hs : ∀ (r : List Value) (v : Value),
        setCellRow df.cols r "measurementValue" v = r.set i v := by
      intro r v
      rw [setCellRow, h]
    simp only [hg, hs]
    exact clean_keep_spec df i h hWF h1 h2

/-- A concrete cleaner input: a numeric string, a placeholder, a non-numeric
string, and a null. -/
def c8Table : Table :=
  ⟨["measurementValue", "other"],
   [[.str "5", .str "p"], [.str "NaN", .str "q"], [.str "abc", .str "r"], [.na, .str "s"]]⟩

/-- Witness for C8 at the concrete table: the numeric string is coerced, the
non-numeric string is kept, the placeholder row and the null row are
removed. -/
theorem c8_witness :
    (clean_and_infer_measurement_values c8Table true).rows =
      [[Value.num (mkRat 5 1), Value.str "p"], [Value.str "abc", Value.str "r"]] := by
  have h := (c8_valuecleaner_keep_strings c8Table (by decide) (by decide)
    (by decide) (by decide)).2
  rw [h]
  decide

/-! ### Claim C3 -/

/-- A small concrete table for the C3 counterexample. -/
def c3Table : Table := ⟨["a"], [[.str "x"]]⟩

/-- C3 counterexample: with the trait-dictionary file missing, the body
raises FileNotFoundError but the stage catches it and returns the input
table: the error does not propagate and the pipeline is not aborted. -/
theorem c3_counterexample :
    measurement_body c3Table .missing exampleIds =
      .error ("FileNotFoundError: trait dict file not found", c3Table) ∧
    measurement_attribute_preparation c3Table .missing exampleIds = c3Table := by
  exact ⟨rfl, rfl⟩

/-- C3 amended: a missing or malformed trait-dictionary file is caught and
the stage returns its input table unmodified, the same degrade as other
errors; an unexpected error later in the stage returns the stage's current
working table, which can differ from the input (the fallback branch with a
measurementValue column but no measurementType column hits a KeyError after
already adding observationId, and returns that modified table). -/
theorem c3_amended :
    (∀ (df : Table) (ids : Nat → String),
        measurement_attribute_preparation df .missing ids = df) ∧
    (∀ (df : Table) (ids : Nat → String),
        measurement_attribute_preparation df .malformed ids = df) ∧
    (∀ (df : Table) (d : List (String × TraitEntry)) (ids : Nat → String),
        (∀ c ∈ df.cols, c ∉ traitKeys d) →
        "measurementValue" ∈ df.cols →
        "measurementType" ∉ df.cols →
        "measurementTypeID" ∉ df.cols →
        "propertyName" ∉ df.cols →
        "observationId" ∉ df.cols →
        measurement_attribute_preparation df (.ok d) ids =
          setColumnVals df "observationId" (idColumn ids df.rows.length) ∧
        measurement_attribute_preparation df (.ok d) ids ≠ df) := by
  refine ⟨fun df ids => rfl, fun df ids => rfl, ?_⟩
  intro df d ids hk hmv hmt hmtid hpn hobs
  have hM : df.cols.filter (fun c => decide (c ∈ traitKeys d)) = [] := by
    rw [List.filter_eq_nil_iff]
    intro c hc
    simpa using hk c hc
  have hnonM : df.cols.filter (fun c => decide (c ∉ traitKeys d)) = df.cols := by
    rw [List.filter_eq_self]
    intro c hc
    simpa using hk c hc
  have hobsgen : observation_id_generator df ids =
      setColumnVals df "observationId" (idColumn ids df.rows.length) := by
    rw [observation_id_generator, if_neg hobs]
  have hobscols : (setColumnVals df "observationId" (idColumn ids df.rows.length)).cols =
      df.cols ++ ["observationId"] := by
    rw [setColumnVals, (colIdx_eq_none df.cols "observationId").mpr hobs]
  have hlookup : ∀ c : String, c ≠ "measurementType" → c ≠ "measurementTypeID" →
      ([("measurementType", "propertyName"), ("measurementTypeID", "propertyUrl")].lookup c)
        = none := by
    intro c hc1 hc2
    have e1 : (c == "measurementType") = false := beq_eq_false_iff_ne.mpr hc1
    have e2 : (c == "measurementTypeID") = false := beq_eq_false_iff_ne.mpr hc2
    simp [List.lookup, e1, e2]
  have hrename : renameCols (setColumnVals df "observationId" (idColumn ids df.rows.length))
      [("measurementType", "propertyName"), ("measurementTypeID", "propertyUrl")] =
      setColumnVals df "observationId" (idColumn ids df.rows.length) := by
    rw [renameCols]
    cases hsv : setColumnVals df "observationId" (idColumn ids df.rows.length) with
    | mk cols rows =>
      simp only [Table.mk.injEq, and_true]
      have hcolseq : cols = df.cols ++ ["observationId"] := by
        rw [hsv] at hobscols
        exact hobscols
      refine (List.map_congr_left ?_).trans (List.map_id cols)
      intro c hc
      have hc2 : c ∈ df.cols ++ ["observationId"] := hcolseq ▸ hc
      have hne1 : c ≠ "measurementType" := by
        rcases List.mem_append.mp hc2 with h | h
        · exact fun he => hmt (he ▸ h)
        · simp only [List.mem_singleton] at h
          rw [h]; decide
      have hne2 : c ≠ "measurementTypeID" := by
        rcases List.mem_append.mp hc2 with h | h
        · exact fun he => hmtid (he ▸ h)
        · simp only [List.mem_singleton] at h
          rw [h]; decide
      simp [hlookup c hne1 hne2]
  have hpn2 : "propertyName" ∉
      (setColumnVals df "observationId" (idColumn ids df.rows.length)).cols := by
    rw [hobscols]
    intro hmem
    rcases List.mem_append.mp hmem with h | h
    · exact hpn h
    · simp only [List.mem_singleton] at h
      exact absurd h (by decide)
  have hbody : measurement_body df (.ok d) ids =
      .error ("KeyError: propertyName",
        setColumnVals df "observationId" (idColumn ids df.rows.length)) := by
    simp only [measurement_body]
    rw [hM, hnonM]
    rw [if_pos rfl, if_pos hmv, hobsgen, hrename, if_neg hpn2]
  have hres : measurement_attribute_preparation df (.ok d) ids =
      setColumnVals df "observationId" (idColumn ids df.rows.length) := by
    rw [measurement_attribute_preparation, hbody]
  refine ⟨hres, ?_⟩
  rw [hres]
  intro he
  have hlen := congrArg (fun t : Table => t.cols.length) he
  simp [hobscols] at hlen

/-- Witness for C3 amended at concrete tables. -/
theorem c3_witness :
    measurement_attribute_preparation ⟨["b"], [[Value.str "1"]]⟩ .missing exampleIds =
      ⟨["b"], [[Value.str "1"]]⟩ ∧
    measurement_attribute_preparation ⟨["measurementValue"], [[Value.str "7"]]⟩
      (.ok [("height", ⟨.str "H", .str "D", .str "U", .str "T"⟩)]) exampleIds ≠
      ⟨["measurementValue"], [[Value.str "7"]]⟩ := by
  constructor
  · exact c3_amended.1 ⟨["b"], [[Value.str "1"]]⟩ exampleIds
  · exact (c3_amended.2.2 ⟨["measurementValue"], [[Value.str "7"]]⟩
      [("height", ⟨.str "H", .str "D", .str "U", .str "T"⟩)] exampleIds
      (by decide) (by decide) (by decide) (by decide) (by decide) (by decide)).2

end LW
